import Mathlib

/-!
Shallow embedding of the task-tracking backend (Express + Mongoose to-do
list). The definitions below are translated from `src/routes/tasks.js`
(route handlers and the `express-validator` chain) and from the Mongoose
task schema (`src/unnamed/part_000`). Timestamps are modelled as `Int`
milliseconds since the epoch; JSON request bodies are records of `Option`
fields (`some v` = key present with value `v`); the document store is a
`List Task`. MongoDB guarantees `_id` uniqueness, which appears below as
the hypothesis `(store.map Task._id).Nodup` where a proof needs it.
-/

deriving instance DecidableEq for Except

namespace Todo

/-- JavaScript trim `String.prototype.trim`: strip leading and trailing
whitespace, modelled on the string's character list. -/
def strTrim (s : String) : String :=
  ⟨((s.data.dropWhile Char.isWhitespace).reverse.dropWhile Char.isWhitespace).reverse⟩

/-- An itemized field-level validation error, as produced by the
`express-validator` chain in `src/routes/tasks.js` (field path + message). -/
structure FieldError where
  field : String
  msg : String
deriving DecidableEq, Repr

/-- The error responses the task route handlers produce:
`validationError errs` is the 400 `{success:false, errors:[...]}` body from
`validationResult`; `invalidFormat` is the 400
`{success:false, message:'Invalid request format'}` body of the reorder
handler; `notFound` is the 404 `{success:false, message:'Task not found'}`
body of the update and delete handlers. -/
inductive ErrorResp where
  | validationError (errs : List FieldError)
  | invalidFormat
  | notFound
deriving DecidableEq, Repr

/-- HTTP status code attached to each error response in `tasks.js`. -/
def ErrorResp.status : ErrorResp → Nat
  | .validationError _ => 400
  | .invalidFormat => 400
  | .notFound => 404

/-- A persisted task document, following the Mongoose `taskSchema`
(`src/unnamed/part_000`): `_id` is the opaque document id, `user` the
owning principal's id, date fields are epoch-millisecond timestamps. -/
structure Task where
  _id : String
  title : String
  description : Option String
  category : String
  priority : String
  status : String
  dueDate : Option Int
  reminder : Option Int
  order : Int
  user : String
  createdAt : Int
  completedAt : Option Int
deriving DecidableEq, Repr

/-- A JSON request body for create/update (`req.body`): each field is
`some v` when the key is present. The two date fields arrive as ISO-8601
strings in JS; they are modelled as already-parsed timestamps, so the
`isISO8601` format checks always pass for a present value. Keys outside
the schema are dropped by Mongoose strict mode and `_id`/`createdAt` are
immutable in the schema, so they are not modelled; note that `user`,
`order` and `completedAt` ARE schema paths a body may supply. -/
structure Body where
  title : Option String := none
  description : Option String := none
  category : Option String := none
  priority : Option String := none
  status : Option String := none
  dueDate : Option Int := none
  reminder : Option Int := none
  order : Option Int := none
  user : Option String := none
  completedAt : Option Int := none
deriving DecidableEq, Repr

/-- The category enumeration of `taskSchema.category`. -/
def categories : List String := ["Personal", "Work", "Study", "Health", "Other"]

/-- The priority enumeration of `taskSchema.priority`. -/
def priorities : List String := ["Low", "Medium", "High"]

/-- The status enumeration of `taskSchema.status`. -/
def statuses : List String := ["Pending", "In Progress", "Completed"]

/-- Validator chain `body('title').trim().notEmpty().withMessage('Title is required')
.isLength({max:100})...` — not `.optional()`, so a missing title fails
`notEmpty` (express-validator runs the validators against `undefined`,
coerced to the empty string). -/
def titleErrors (b : Body) : List FieldError :=
  match b.title with
  | none => [⟨"title", "Title is required"⟩]
  | some s =>
    (if strTrim s = "" then [⟨"title", "Title is required"⟩] else []) ++
    (if (strTrim s).length > 100 then
      [⟨"title", "Title cannot be more than 100 characters"⟩] else [])

/-- Validator chain `body('description').optional().trim().isLength({max:500})...` —
skipped when the key is absent. -/
def descriptionErrors (b : Body) : List FieldError :=
  match b.description with
  | none => []
  | some s =>
    if (strTrim s).length > 500 then
      [⟨"description", "Description cannot be more than 500 characters"⟩] else []

/-- Validator chain `body('category').isIn([...]).withMessage('Invalid category')` — NOT
`.optional()`: a missing category is validated as `undefined`, which is
not in the enumeration, so omission itself is an error. -/
def categoryErrors (b : Body) : List FieldError :=
  match b.category with
  | none => [⟨"category", "Invalid category"⟩]
  | some c => if c ∈ categories then [] else [⟨"category", "Invalid category"⟩]

/-- Validator chain `body('priority').isIn([...]).withMessage('Invalid priority level')` —
NOT `.optional()`, like `category`. -/
def priorityErrors (b : Body) : List FieldError :=
  match b.priority with
  | none => [⟨"priority", "Invalid priority level"⟩]
  | some p => if p ∈ priorities then [] else [⟨"priority", "Invalid priority level"⟩]

/-- Validator chain `body('status').optional().isIn([...]).withMessage('Invalid status')`. -/
def statusErrors (b : Body) : List FieldError :=
  match b.status with
  | none => []
  | some s => if s ∈ statuses then [] else [⟨"status", "Invalid status"⟩]

/-- Validator chain `body('dueDate').optional().isISO8601().custom(...)` — the custom rule
throws when `new Date(value) <= new Date()`, i.e. when the supplied
timestamp is not strictly greater than the current time. -/
def dueDateErrors (now : Int) (b : Body) : List FieldError :=
  match b.dueDate with
  | none => []
  | some d => if d ≤ now then [⟨"dueDate", "Due date must be in the future"⟩] else []

/-- Validator chain `body('reminder').optional().isISO8601().custom(...)` — same strict
future-only rule as `dueDate`. -/
def reminderErrors (now : Int) (b : Body) : List FieldError :=
  match b.reminder with
  | none => []
  | some r => if r ≤ now then [⟨"reminder", "Reminder must be in the future"⟩] else []

/-- The full `validateTask` middleware chain of `src/routes/tasks.js`
lines 11–36, collecting the itemized errors in chain order. It is applied
unchanged to both `POST /` (create) and `PUT /:id` (update). -/
def validateTask (now : Int) (b : Body) : List FieldError :=
  titleErrors b ++ descriptionErrors b ++ categoryErrors b ++ priorityErrors b ++
  statusErrors b ++ dueDateErrors now b ++ reminderErrors now b

/-- Constructor call `new Task({...req.body, user: req.user.id})` followed by `save()`:
the spread copies every body key, then the `user` key is overwritten with
the caller's id (so a body-supplied `user` is ignored on create); the
schema fills `category`/`priority`/`status`/`order`/`createdAt` defaults
for absent paths and trims the string paths. -/
def newTask (now : Int) (callerId : String) (b : Body) (freshId : String) : Task :=
  { _id := freshId
    title := strTrim (b.title.getD "")
    description := b.description.map strTrim
    category := b.category.getD "Personal"
    priority := b.priority.getD "Medium"
    status := b.status.getD "Pending"
    dueDate := b.dueDate
    reminder := b.reminder
    order := b.order.getD 0
    user := callerId
    createdAt := now
    completedAt := b.completedAt }

/-- The `POST /` handler: run `validateTask`, return the 400 itemized
error list when it is nonempty, otherwise construct and persist the new
task and return it with 201. -/
def createTask (now : Int) (callerId : String) (b : Body) (freshId : String) :
    Except ErrorResp Task :=
  if validateTask now b = [] then .ok (newTask now callerId b freshId)
  else .error (.validationError (validateTask now b))

/-- Lookup `Task.findOne({ _id: req.params.id, user: req.user.id })` — the
owner-scoped single-document lookup used by the update handler. -/
def findTask (callerId taskId : String) (store : List Task) : Option Task :=
  store.find? fun t => t._id == taskId && t.user == callerId

/-- The update handler's merge loop
`Object.keys(req.body).forEach(key => { task[key] = req.body[key]; })`:
every key present in the body overwrites the document's field — `user`,
`order` and `completedAt` included. The `trim` sanitizers of
`validateTask` have already trimmed `title` and `description` in
`req.body` by the time the loop runs. -/
def mergeBody (t : Task) (b : Body) : Task :=
  { t with
    title := (b.title.map strTrim).getD t.title
    description := match b.description with | some s => some (strTrim s) | none => t.description
    category := b.category.getD t.category
    priority := b.priority.getD t.priority
    status := b.status.getD t.status
    dueDate := match b.dueDate with | some d => some d | none => t.dueDate
    reminder := match b.reminder with | some r => some r | none => t.reminder
    order := b.order.getD t.order
    user := b.user.getD t.user
    completedAt := match b.completedAt with | some c => some c | none => t.completedAt }

/-- Replace the first element satisfying `p` by its image under `f`,
leaving everything else in place — the effect of a MongoDB `updateOne`
(or of `save()` on a fetched document) on a list-modelled store. -/
def updateFirst (p : α → Bool) (f : α → α) : List α → List α
  | [] => []
  | x :: xs => if p x then f x :: xs else x :: updateFirst p f xs

/-- Persisting `task.save()` after the update handler mutated the
document found by `findTask`: the (unique) matching document is replaced. -/
def replaceTask (callerId taskId : String) (final : Task) (store : List Task) :
    List Task :=
  updateFirst (fun t => t._id == taskId && t.user == callerId) (fun _ => final) store

/-- The `PUT /:id` handler (`src/routes/tasks.js` lines 103–144), in the
order the code runs: `validateTask` first (400 on any error), then the
owner-scoped `findOne` (404 when absent), then the merge loop, then the
completion check
`if (req.body.status === 'Completed' && task.status !== 'Completed')` —
note that `task` here is the document AFTER the merge loop has already
copied `req.body.status` onto it — then `save()`. Returns the updated
task and the updated store. -/
def updateTask (now : Int) (callerId taskId : String) (b : Body) (store : List Task) :
    Except ErrorResp (Task × List Task) :=
  if validateTask now b = [] then
    match findTask callerId taskId store with
    | none => .error .notFound
    | some task =>
      let merged := mergeBody task b
      let final :=
        if b.status = some "Completed" ∧ merged.status ≠ "Completed"
        then { merged with completedAt := some now } else merged
      .ok (final, replaceTask callerId taskId final store)
  else .error (.validationError (validateTask now b))

/-- The `DELETE /:id` handler:
`Task.findOneAndDelete({ _id: req.params.id, user: req.user.id })` — 404
when no owner-scoped match exists, otherwise the matching document is
permanently removed. -/
def deleteTask (callerId taskId : String) (store : List Task) :
    Except ErrorResp (List Task) :=
  match findTask callerId taskId store with
  | none => .error .notFound
  | some _ => .ok (store.eraseP fun t => t._id == taskId && t.user == callerId)

/-- The optional query parameters of `GET /` (`req.query`). The three
string filters model query-string parameters; `dueDate` is the parsed
`new Date(dueDate)` instant of a present parameter. -/
structure Filters where
  category : Option String := none
  status : Option String := none
  priority : Option String := none
  dueDate : Option Int := none
deriving DecidableEq, Repr

/-- JavaScript truthiness of a query-string parameter: `if (category)`
skips both an absent parameter and an empty string. -/
def activeFilter : Option String → Option String
  | none => none
  | some s => if s = "" then none else some s

/-- Model of `d.setHours(0, 0, 0, 0)` applied to a `Date` holding instant `t`:
the start of the server-local calendar day containing `t`, where
`tzOffset` is the server's local-time offset from UTC in milliseconds
(local time = UTC instant + `tzOffset`). The matching
`setHours(23, 59, 59, 999)` end of day is `dayStart tzOffset t + 86399999`. -/
def dayStart (tzOffset : Int) (t : Int) : Int :=
  ((t + tzOffset).fdiv 86400000) * 86400000 - tzOffset

/-- The MongoDB query object built by the `GET /` handler lines 42–53:
`{ user }` plus an exact-match clause per truthy string filter, plus
`{ dueDate: { $gte: startOfDay, $lte: endOfDay } }` for a present
`dueDate` parameter (a document without a `dueDate` field never matches a
`$gte/$lte` clause). -/
def buildQuery (owner : String) (f : Filters) (tz : Int) (t : Task) : Bool :=
  t.user == owner
  && (match activeFilter f.category with | none => true | some c => t.category == c)
  && (match activeFilter f.status with | none => true | some s => t.status == s)
  && (match activeFilter f.priority with | none => true | some p => t.priority == p)
  && (match f.dueDate with
      | none => true
      | some d =>
        match t.dueDate with
        | none => false
        | some td => decide (dayStart tz d ≤ td) && decide (td ≤ dayStart tz d + 86399999))

/-- The ascending `order` comparison used by `.sort({ order: 1 })`. -/
def taskLE (a b : Task) : Prop := a.order ≤ b.order

instance : DecidableRel taskLE := fun a b => inferInstanceAs (Decidable (a.order ≤ b.order))

instance : IsTotal Task taskLE := ⟨fun a b => Int.le_total a.order b.order⟩

instance : IsTrans Task taskLE := ⟨fun _ _ _ h1 h2 => le_trans h1 h2⟩

/-- The `GET /` handler: `Task.find(query).sort({ order: 1 })` — the
owner-scoped filtered documents, sorted ascending by `order` (modelled
with the stable `insertionSort`); an empty match set is returned as an
empty list, not an error. -/
def listTasks (owner : String) (f : Filters) (tz : Int) (store : List Task) : List Task :=
  List.insertionSort taskLE (store.filter (buildQuery owner f tz))

/-- The reorder request body: `const { tasks } = req.body` followed by
`Array.isArray(tasks)`. A well-formed payload is the ordered sequence of
the `_id` strings of its `{_id: ...}` items; anything else is `notArr`. -/
inductive ReorderBody where
  | arr (ids : List String)
  | notArr
deriving DecidableEq, Repr

/-- The ordered `bulkWrite` issued by the reorder handler:
`tasks.map((task, index) => ({ updateOne: { filter: { _id: task._id,
user: req.user.id }, update: { $set: { order: index } } } }))` — each
`updateOne` updates at most one document matching the owner-scoped
filter, and the operations are applied in sequence starting at index `i`. -/
def applyReorderOps (callerId : String) : Nat → List String → List Task → List Task
  | _, [], store => store
  | i, tid :: rest, store =>
    applyReorderOps callerId (i + 1) rest
      (updateFirst (fun t => t._id == tid && t.user == callerId)
        (fun t => { t with order := (i : Int) }) store)

/-- The `PUT /reorder` handler body (`src/routes/tasks.js` lines 171–201):
400 `Invalid request format` when `tasks` is not an array, otherwise the
positional `bulkWrite` above. -/
def reorderTasks (callerId : String) (b : ReorderBody) (store : List Task) :
    Except ErrorResp (List Task) :=
  match b with
  | .notArr => .error .invalidFormat
  | .arr ids => .ok (applyReorderOps callerId 0 ids store)

/-- Zero-based position of the first occurrence of `x` in a sequence
(the `index` of the `tasks.map((task, index) => ...)` callback at which
`x` appears). -/
def idxIn (x : String) : List String → Nat
  | [] => 0
  | y :: ys => if x = y then 0 else idxIn x ys + 1

/-- One segment of a registered Express route path: a literal or a
`:name` parameter. -/
inductive Seg where
  | lit (s : String)
  | par (s : String)
deriving DecidableEq, Repr

/-- The seven handlers registered on the tasks router, in source order. -/
inductive HandlerId where
  | listTasksH
  | createTaskH
  | updateTaskH
  | deleteTaskH
  | reorderH
  | byCategoryH
  | byDueDateH
deriving DecidableEq, Repr

/-- A registered route: HTTP verb, path pattern, handler. -/
structure Route where
  verb : String
  pattern : List Seg
  handler : HandlerId
deriving DecidableEq, Repr

/-- A literal segment matches only itself; a `:name` parameter matches
any single path segment. -/
def segMatches : Seg → String → Bool
  | .lit s, x => s == x
  | .par _, _ => true

/-- An Express path pattern matches a path of the same length whose
segments all match. -/
def pathMatches : List Seg → List String → Bool
  | [], [] => true
  | s :: ps, x :: xs => segMatches s x && pathMatches ps xs
  | _, _ => false

/-- The routes of `src/routes/tasks.js` in registration (source) order:
`GET /`, `POST /`, `PUT /:id`, `DELETE /:id`, `PUT /reorder`,
`GET /category/:category`, `GET /due/:date`. -/
def taskRoutes : List Route :=
  [ ⟨"GET", [], .listTasksH⟩,
    ⟨"POST", [], .createTaskH⟩,
    ⟨"PUT", [.par "id"], .updateTaskH⟩,
    ⟨"DELETE", [.par "id"], .deleteTaskH⟩,
    ⟨"PUT", [.lit "reorder"], .reorderH⟩,
    ⟨"GET", [.lit "category", .par "category"], .byCategoryH⟩,
    ⟨"GET", [.lit "due", .par "date"], .byDueDateH⟩ ]

/-- Express dispatch: the first registered route whose verb and pattern
match the request wins. -/
def dispatch (verb : String) (path : List String) : Option HandlerId :=
  (taskRoutes.find? fun r => r.verb == verb && pathMatches r.pattern path).map Route.handler

/-- Fixture: a pending task owned by principal `u1`. -/
def samplePending : Task :=
  { _id := "t1", title := "Buy milk", description := none, category := "Personal",
    priority := "Low", status := "Pending", dueDate := none, reminder := none,
    order := 0, user := "u1", createdAt := 50, completedAt := none }

/-- Fixture: a fully valid update payload that sets `status` to Completed. -/
def completeBody : Body :=
  { title := some "Buy milk", category := some "Personal", priority := some "Low",
    status := some "Completed" }

/-- Fixture: an update payload supplying only `status`. -/
def statusOnlyBody : Body := { status := some "Completed" }

/-- Fixture: a valid update payload that also supplies a `user` key. -/
def ownerGrabBody : Body :=
  { title := some "Buy milk", category := some "Personal", priority := some "Low",
    user := some "mallory" }

/-- Fixture: a create payload omitting `category`. -/
def noCategoryBody : Body := { title := some "Read", priority := some "Low" }

/-- Fixture: a create payload omitting `priority`. -/
def noPriorityBody : Body := { title := some "Read", category := some "Work" }

/-- Fixture: a valid create payload omitting `status`. -/
def createBody : Body :=
  { title := some "Buy milk", category := some "Personal", priority := some "Low" }

/-- Fixture: a payload whose `dueDate` and `reminder` (10) lie before
the evaluation time (100). -/
def pastDatesBody : Body :=
  { title := some "Read", category := some "Work", priority := some "High",
    dueDate := some 10, reminder := some 10 }

/-- Fixture tasks for the reorder and list scenarios. -/
def taskA : Task := { samplePending with _id := "a", order := 7 }

/-- Fixture task `b`, owned by `u1`. -/
def taskB : Task := { samplePending with _id := "b", order := 3 }

/-- Fixture task `c`, owned by `u1`. -/
def taskC : Task := { samplePending with _id := "c", order := 9 }

/-- Fixture task `x`, owned by another principal `u2`. -/
def taskX : Task := { samplePending with _id := "x", user := "u2", order := 4 }

/-- Fixture store holding three `u1` tasks and one `u2` task. -/
def reorderStore : List Task := [taskA, taskB, taskC, taskX]

/-- Fixture reorder payload: `u1`'s three ids plus the foreign id `x`. -/
def reorderIds : List String := ["c", "a", "b", "x"]

/-! Shared lemmas used by several claim proofs. -/

/-- A successful owner-scoped `findOne` returns a document with the
requested id, owned by the caller. -/
theorem findTask_eq_some {u tid : String} {st : List Task} {task : Task}
    (h : findTask u tid st = some task) : task._id = tid ∧ task.user = u := by
  unfold findTask at h
  have h2 := List.find?_some h
  simpa [Bool.and_eq_true, beq_iff_eq] using h2

/-- A successful owner-scoped `findOne` returns a document of the store. -/
theorem findTask_mem {u tid : String} {st : List Task} {task : Task}
    (h : findTask u tid st = some task) : task ∈ st := by
  unfold findTask at h
  exact List.mem_of_find?_eq_some h

/-- On a valid payload and a found document, the update handler returns
exactly the merged document: the completion-stamp branch compares
`req.body.status` with the already-merged `task.status`, so it never
fires. -/
theorem updateTask_ok_eq (now : Int) (u tid : String) (b : Body) (st : List Task)
    (task : Task) (hv : validateTask now b = []) (hfind : findTask u tid st = some task) :
    updateTask now u tid b st =
      .ok (mergeBody task b, replaceTask u tid (mergeBody task b) st) := by
  have hcond : ¬(b.status = some "Completed" ∧ (mergeBody task b).status ≠ "Completed") := by
    rintro ⟨hs, hne⟩
    exact hne (by simp [mergeBody, hs])
  simp [updateTask, hv, hfind, hcond]

/-! Theorems settling the claims. -/

/-- Claim C1: The completion side effect of `PUT /:id` is dead code: the
merge loop has already copied `req.body.status` onto the document before
the check `req.body.status === 'Completed' && task.status !== 'Completed'`
runs, so the check can never pass and a successful update returns exactly
the merged document — `completedAt` is never stamped with the current
time, but comes only from the body (or keeps its prior value), refuting
the first half of the claim; the second half (a status change away from
Completed does not clear `completedAt`) is the `none` case of the same
equation. -/
theorem update_completedAt_stamp_unreachable (now : Int) (u tid : String) (b : Body)
    (st : List Task) (task : Task) (hv : validateTask now b = [])
    (hfind : findTask u tid st = some task) :
    updateTask now u tid b st =
      .ok (mergeBody task b, replaceTask u tid (mergeBody task b) st)
    ∧ (mergeBody task b).completedAt =
        (match b.completedAt with | some c => some c | none => task.completedAt) :=
  ⟨updateTask_ok_eq now u tid b st task hv hfind, rfl⟩

/-- Witness for C1 at the failing input: a valid update that moves the
pending task `samplePending` to Completed leaves `completedAt = none`. -/
theorem update_completedAt_stamp_unreachable_witness :
    validateTask 100 completeBody = [] ∧
    findTask "u1" "t1" [samplePending] = some samplePending ∧
    (updateTask 100 "u1" "t1" completeBody [samplePending] =
        .ok (mergeBody samplePending completeBody,
          replaceTask "u1" "t1" (mergeBody samplePending completeBody) [samplePending])
      ∧ (mergeBody samplePending completeBody).completedAt =
          (match completeBody.completedAt with
           | some c => some c
           | none => samplePending.completedAt)) ∧
    (mergeBody samplePending completeBody).status = "Completed" ∧
    (mergeBody samplePending completeBody).completedAt = none :=
  ⟨by decide, by decide,
    update_completedAt_stamp_unreachable 100 "u1" "t1" completeBody [samplePending]
      samplePending (by decide) (by decide),
    by decide, by decide⟩

/-- Claim C2 counterexample: An update supplying only `status` — the spec's
own end-to-end example — does not succeed: `validateTask` runs in full on
`PUT /:id`, so the omitted `title`, `category` and `priority` each produce
an itemized error and the request fails with the 400 list before the
record is looked up. -/
theorem update_partial_payload_rejected_cex :
    updateTask 0 "u1" "t1" statusOnlyBody [samplePending] =
      .error (.validationError
        [⟨"title", "Title is required"⟩, ⟨"category", "Invalid category"⟩,
         ⟨"priority", "Invalid priority level"⟩]) := by decide

/-- Claim C2 amended: Update validation is not restricted to the supplied
subset of fields: the full create validator runs against the payload
alone, so omitting `title`, `category` or `priority` yields an itemized
error for that field, and any validation error makes `PUT /:id` fail with
the 400 itemized list before the existing record is consulted or
modified. -/
theorem update_validation_requires_create_fields (now : Int) (b : Body) :
    (b.title = none → FieldError.mk "title" "Title is required" ∈ validateTask now b)
    ∧ (b.category = none → FieldError.mk "category" "Invalid category" ∈ validateTask now b)
    ∧ (b.priority = none →
        FieldError.mk "priority" "Invalid priority level" ∈ validateTask now b)
    ∧ (∀ u tid st, validateTask now b ≠ [] →
        updateTask now u tid b st = .error (.validationError (validateTask now b))) := by
  refine ⟨?_, ?_, ?_, ?_⟩
  · intro h; simp [validateTask, titleErrors, h]
  · intro h; simp [validateTask, categoryErrors, h]
  · intro h; simp [validateTask, priorityErrors, h]
  · intro u tid st h; simp [updateTask, h]

/-- Witness for the amended C2 at the concrete status-only payload. -/
theorem update_validation_requires_create_fields_witness :
    statusOnlyBody.title = none ∧ statusOnlyBody.category = none ∧
    statusOnlyBody.priority = none ∧ validateTask 0 statusOnlyBody ≠ [] ∧
    FieldError.mk "title" "Title is required" ∈ validateTask 0 statusOnlyBody ∧
    updateTask 0 "u9" "t9" statusOnlyBody [] =
      .error (.validationError (validateTask 0 statusOnlyBody)) :=
  ⟨by decide, by decide, by decide, by decide,
    (update_validation_requires_create_fields 0 statusOnlyBody).1 (by decide),
    (update_validation_requires_create_fields 0 statusOnlyBody).2.2.2 "u9" "t9" [] (by decide)⟩

/-- Claim C5 counterexample: The merge loop copies every body key onto the
document, `user` included: a valid update payload carrying
`user: "mallory"` reassigns `u1`'s task to `mallory`. -/
theorem update_can_reassign_owner_cex :
    updateTask 100 "u1" "t1" ownerGrabBody [samplePending] =
      .ok ({ samplePending with user := "mallory" },
        [{ samplePending with user := "mallory" }])
    ∧ "mallory" ≠ "u1" := by decide

/-- Claim C5 amended: The owner reference is unchanged exactly when the
update payload omits the `user` key: a successful `PUT /:id` yields a task
whose `user` equals the payload's `user` when supplied (mass assignment
reassigns ownership) and the original owner otherwise; `POST /` does pin
`user` to the caller regardless of the payload. -/
theorem owner_changes_iff_body_user_supplied (now : Int) (u tid : String) (b : Body)
    (st : List Task) (task : Task) (hv : validateTask now b = [])
    (hfind : findTask u tid st = some task) :
    ∃ st2, updateTask now u tid b st = .ok (mergeBody task b, st2)
      ∧ (mergeBody task b).user = b.user.getD u
      ∧ ∀ fid, (newTask now u b fid).user = u := by
  refine ⟨replaceTask u tid (mergeBody task b) st,
    updateTask_ok_eq now u tid b st task hv hfind, ?_, fun _ => rfl⟩
  have hu := (findTask_eq_some hfind).2
  simp [mergeBody, hu]

/-- Witness for the amended C5 at the concrete owner-grabbing payload. -/
theorem owner_changes_iff_body_user_supplied_witness :
    validateTask 100 ownerGrabBody = [] ∧
    findTask "u1" "t1" [samplePending] = some samplePending ∧
    (∃ st2, updateTask 100 "u1" "t1" ownerGrabBody [samplePending] =
        .ok (mergeBody samplePending ownerGrabBody, st2)
      ∧ (mergeBody samplePending ownerGrabBody).user = ownerGrabBody.user.getD "u1"
      ∧ ∀ fid, (newTask 100 "u1" ownerGrabBody fid).user = "u1") :=
  ⟨by decide, by decide,
    owner_changes_iff_body_user_supplied 100 "u1" "t1" ownerGrabBody [samplePending]
      samplePending (by decide) (by decide)⟩

/-- Claim C6 counterexample: A create payload omitting `category` (or
`priority`) does not succeed with the schema default: the route validator
marks neither field `.optional()`, so omission itself is the itemized
validation error and `POST /` rejects the request. -/
theorem create_omitting_category_or_priority_rejected_cex :
    createTask 0 "u1" noCategoryBody "t9" =
      .error (.validationError [⟨"category", "Invalid category"⟩])
    ∧ createTask 0 "u1" noPriorityBody "t9" =
      .error (.validationError [⟨"priority", "Invalid priority level"⟩]) := by decide

/-- Claim C6 amended: Omitting `category` or `priority` in a Create payload
is a validation error (`Invalid category` / `Invalid priority level`) and
the request fails with the itemized 400 list; the schema defaults Personal
and Medium exist in the model constructor but are unreachable through
`POST /` for an omitted field, because validation rejects the payload
first. -/
theorem create_requires_category_and_priority (now : Int) (u fid : String) (b : Body) :
    (b.category = none →
      FieldError.mk "category" "Invalid category" ∈ validateTask now b
      ∧ createTask now u b fid = .error (.validationError (validateTask now b)))
    ∧ (b.priority = none →
      FieldError.mk "priority" "Invalid priority level" ∈ validateTask now b
      ∧ createTask now u b fid = .error (.validationError (validateTask now b)))
    ∧ (newTask now u b fid).category = b.category.getD "Personal"
    ∧ (newTask now u b fid).priority = b.priority.getD "Medium" := by
  refine ⟨fun h => ?_, fun h => ?_, rfl, rfl⟩
  · have hm : FieldError.mk "category" "Invalid category" ∈ validateTask now b := by
      simp [validateTask, categoryErrors, h]
    exact ⟨hm, by simp [createTask, List.ne_nil_of_mem hm]⟩
  · have hm : FieldError.mk "priority" "Invalid priority level" ∈ validateTask now b := by
      simp [validateTask, priorityErrors, h]
    exact ⟨hm, by simp [createTask, List.ne_nil_of_mem hm]⟩

/-- Witness for the amended C6 at the concrete category-omitting payload. -/
theorem create_requires_category_and_priority_witness :
    noCategoryBody.category = none ∧
    (FieldError.mk "category" "Invalid category" ∈ validateTask 0 noCategoryBody
      ∧ createTask 0 "u1" noCategoryBody "t9" =
          .error (.validationError (validateTask 0 noCategoryBody))) ∧
    (newTask 0 "u1" noCategoryBody "t9").category = "Personal" ∧
    (newTask 0 "u1" noPriorityBody "t9").priority = "Medium" :=
  ⟨by decide,
    (create_requires_category_and_priority 0 "u1" "t9" noCategoryBody).1 (by decide),
    by decide, by decide⟩

/-- Claim C7: For every payload passing `validateTask`, `POST /` creates a
task whose `user` is the authenticated caller (the spread
`{...req.body, user: req.user.id}` puts the caller's id last, so even a
body-supplied `user` is overridden) and whose `status` defaults to
Pending when the payload omits it. -/
theorem create_sets_owner_and_defaults_status (now : Int) (u : String) (b : Body)
    (fid : String) (hv : validateTask now b = []) :
    createTask now u b fid = .ok (newTask now u b fid)
    ∧ (newTask now u b fid).user = u
    ∧ (b.status = none → (newTask now u b fid).status = "Pending")
    ∧ (newTask now u b fid).createdAt = now := by
  refine ⟨?_, rfl, ?_, rfl⟩
  · simp [createTask, hv]
  · intro h; simp [newTask, h]

/-- Witness for C7 at the concrete valid create payload omitting status. -/
theorem create_sets_owner_and_defaults_status_witness :
    validateTask 0 createBody = [] ∧
    (createTask 0 "u1" createBody "t9" = .ok (newTask 0 "u1" createBody "t9")
      ∧ (newTask 0 "u1" createBody "t9").user = "u1"
      ∧ (createBody.status = none → (newTask 0 "u1" createBody "t9").status = "Pending")
      ∧ (newTask 0 "u1" createBody "t9").createdAt = 0) :=
  ⟨by decide, create_sets_owner_and_defaults_status 0 "u1" createBody "t9" (by decide)⟩

/-- Claim C8: A present `dueDate` (resp. `reminder`) that is not strictly
greater than the current time produces the itemized error naming that
field, and both `POST /` and `PUT /:id` then fail with the 400 itemized
list — the task store is neither extended nor modified, since both
handlers return before constructing or looking up any document. -/
theorem past_dueDate_or_reminder_rejected (now : Int) (u fid tid : String)
    (b : Body) (st : List Task) :
    (∀ d, b.dueDate = some d → d ≤ now →
      FieldError.mk "dueDate" "Due date must be in the future" ∈ validateTask now b
      ∧ createTask now u b fid = .error (.validationError (validateTask now b))
      ∧ updateTask now u tid b st = .error (.validationError (validateTask now b)))
    ∧ (∀ r, b.reminder = some r → r ≤ now →
      FieldError.mk "reminder" "Reminder must be in the future" ∈ validateTask now b
      ∧ createTask now u b fid = .error (.validationError (validateTask now b))
      ∧ updateTask now u tid b st = .error (.validationError (validateTask now b))) := by
  constructor
  · intro d hd hle
    have hm : FieldError.mk "dueDate" "Due date must be in the future" ∈ validateTask now b := by
      simp [validateTask, dueDateErrors, hd, hle]
    have hne := List.ne_nil_of_mem hm
    exact ⟨hm, by simp [createTask, hne], by simp [updateTask, hne]⟩
  · intro r hr hle
    have hm : FieldError.mk "reminder" "Reminder must be in the future" ∈ validateTask now b := by
      simp [validateTask, reminderErrors, hr, hle]
    have hne := List.ne_nil_of_mem hm
    exact ⟨hm, by simp [createTask, hne], by simp [updateTask, hne]⟩

/-- Claim C4: a `PUT` whose single path segment is the literal `reorder`
is dispatched to the `PUT /:id` update handler (the parameter `:id`
matches the segment `reorder` and that route is registered first), and no
`PUT` request at all can reach the reorder handler — the `PUT /reorder`
registration at line 171 is dead. The README documents
`PUT /api/tasks/reorder - Update task order`, so this is a slip in route
registration order, not intent. -/
theorem put_reorder_dispatches_to_update_route :
    dispatch "PUT" ["reorder"] = some HandlerId.updateTaskH
    ∧ ∀ path : List String, dispatch "PUT" path ≠ some HandlerId.reorderH := by
  refine ⟨by decide, ?_⟩
  intro path
  match path with
  | [] => decide
  | [x] =>
    simp [dispatch, taskRoutes, List.find?, pathMatches, segMatches]
  | x :: y :: rest =>
    simp [dispatch, taskRoutes, List.find?, pathMatches, segMatches]

/-- Helper: in a store with pairwise-distinct ids, once the head
satisfies an id-targeting predicate, nothing in the tail does. -/
theorem tail_not_sat {p : Task → Bool} {tid : String}
    (hp : ∀ t, p t = true → t._id = tid) {x : Task} {xs : List Task}
    (hx : p x = true) (hnotin : x._id ∉ xs.map Task._id) :
    ∀ y ∈ xs, p y = false := by
  intro y hy
  cases hpy : p y with
  | false => rfl
  | true =>
    have hmem : y._id ∈ xs.map Task._id := List.mem_map_of_mem Task._id hy
    rw [hp y hpy, ← hp x hx] at hmem
    exact absurd hmem hnotin

/-- Helper: a conditional map whose condition holds nowhere is the
identity. -/
theorem map_if_id_of_not (p : Task → Bool) (f : Task → Task) :
    ∀ l : List Task, (∀ x ∈ l, p x = false) →
      (l.map fun t => if p t then f t else t) = l := by
  intro l h
  induction l with
  | nil => rfl
  | cons x xs ih =>
    have hx : p x = false := h x (List.mem_cons_self x xs)
    simp only [List.map_cons, hx, Bool.false_eq_true, if_false]
    exact congrArg (x :: ·) (ih fun y hy => h y (List.mem_cons_of_mem x hy))

/-- Helper: on a store with pairwise-distinct ids, an id-targeting
`updateOne` (update the first match) is a pointwise conditional map,
because at most one document can match. -/
theorem updateFirst_eq_map {p : Task → Bool} {f : Task → Task} {tid : String}
    (hp : ∀ t, p t = true → t._id = tid) :
    ∀ st : List Task, (st.map Task._id).Nodup →
      updateFirst p f st = st.map fun t => if p t then f t else t := by
  intro st
  induction st with
  | nil => intro _; rfl
  | cons x xs ih =>
    intro hst
    rw [List.map_cons, List.nodup_cons] at hst
    by_cases hx : p x = true
    · have hnone := tail_not_sat hp hx hst.1
      simp [updateFirst, hx, map_if_id_of_not p f xs hnone]
    · have hxf : p x = false := by simpa using hx
      simp [updateFirst, hxf, ih hst.2]

/-- Helper: the ordered reorder `bulkWrite`, on a store with
pairwise-distinct ids and a duplicate-free id sequence, is a single
pointwise map: each caller-owned task whose id occurs at zero-based
position `k` in the sequence gets `order := i + k`; every other document
is untouched. -/
theorem applyReorderOps_eq_map (u : String) :
    ∀ (ids : List String) (i : Nat) (st : List Task), ids.Nodup →
      (st.map Task._id).Nodup →
      applyReorderOps u i ids st =
        st.map fun t =>
          if t.user = u ∧ t._id ∈ ids
          then { t with order := ((i + idxIn t._id ids : Nat) : Int) } else t := by
  intro ids
  induction ids with
  | nil =>
    intro i st _ _
    simp [applyReorderOps]
  | cons tid rest ih =>
    intro i st hids hst
    rw [List.nodup_cons] at hids
    have hstep := updateFirst_eq_map (p := fun t => t._id == tid && t.user == u)
      (f := fun t => { t with order := (i : Int) })
      (fun t ht => by
        simp only [Bool.and_eq_true, beq_iff_eq] at ht
        exact ht.1) st hst
    have hmapid : ((updateFirst (fun t => t._id == tid && t.user == u)
        (fun t => { t with order := (i : Int) }) st).map Task._id) = st.map Task._id := by
      rw [hstep, List.map_map]
      refine List.map_congr_left fun t _ => ?_
      by_cases hpt : (t._id == tid && t.user == u) = true
      · simp [Function.comp, hpt]
      · have hptf : (t._id == tid && t.user == u) = false := by simpa using hpt
        simp [Function.comp, hptf]
    show applyReorderOps u (i + 1) rest
        (updateFirst (fun t => t._id == tid && t.user == u)
          (fun t => { t with order := (i : Int) }) st) = _
    rw [ih (i + 1) _ hids.2 (by rw [hmapid]; exact hst), hstep, List.map_map]
    refine List.map_congr_left fun t _ => ?_
    simp only [Function.comp_apply]
    by_cases hu : t.user = u
    · by_cases hid : t._id = tid
      · have hp : (t._id == tid && t.user == u) = true := by simp [hid, hu]
        rw [if_pos hp]
        rw [if_neg (fun hc => absurd (show t._id ∈ rest from hc.2)
          (by rw [hid]; exact hids.1))]
        rw [if_pos ⟨hu, by rw [hid]; exact List.mem_cons_self tid rest⟩]
        have hidx : idxIn t._id (tid :: rest) = 0 := by simp [idxIn, hid]
        rw [hidx]
        exact congrArg (fun n : Nat => ({ t with order := (n : Int) } : Task))
          (by omega)
      · have hp : (t._id == tid && t.user == u) = false := by simp [hid]
        rw [if_neg (by simp [hp] : ¬(t._id == tid && t.user == u) = true)]
        by_cases hmr : t._id ∈ rest
        · rw [if_pos ⟨hu, hmr⟩, if_pos ⟨hu, List.mem_cons_of_mem tid hmr⟩]
          have hidx : idxIn t._id (tid :: rest) = idxIn t._id rest + 1 := by
            simp [idxIn, hid]
          rw [hidx]
          exact congrArg (fun n : Nat => ({ t with order := (n : Int) } : Task))
            (by omega)
        · rw [if_neg (fun hc => hmr hc.2)]
          rw [if_neg (fun hc => (List.mem_cons.mp hc.2).elim hid hmr)]
    · have hp : (t._id == tid && t.user == u) = false := by simp [hu]
      rw [if_neg (by simp [hp] : ¬(t._id == tid && t.user == u) = true)]
      rw [if_neg (fun hc => hu hc.1), if_neg (fun hc => hu hc.1)]

/-- Claim C3: a well-formed reorder payload sets, for every task of the
store owned by the caller whose id occurs in the sequence, `order` to the
id's zero-based position in the sequence; tasks owned by a different
principal (and tasks not named) are left unchanged; a payload whose
`tasks` key is not an array fails with the 400 `Invalid request format`
response. Stated on a store with pairwise-distinct ids (a MongoDB
invariant) and a duplicate-free id sequence. -/
theorem reorder_assigns_zero_based_positions (u : String) (ids : List String)
    (st : List Task) (hids : ids.Nodup) (hst : (st.map Task._id).Nodup) :
    reorderTasks u (.arr ids) st =
      .ok (st.map fun t =>
        if t.user = u ∧ t._id ∈ ids
        then { t with order := ((idxIn t._id ids : Nat) : Int) } else t)
    ∧ (∀ t ∈ st, t.user = u → t._id ∈ ids →
        { t with order := ((idxIn t._id ids : Nat) : Int) } ∈ applyReorderOps u 0 ids st)
    ∧ (∀ t ∈ st, t.user ≠ u → t ∈ applyReorderOps u 0 ids st)
    ∧ (reorderTasks u .notArr st = .error .invalidFormat
        ∧ ErrorResp.invalidFormat.status = 400) := by
  have hmap0 : applyReorderOps u 0 ids st =
      st.map fun t =>
        if t.user = u ∧ t._id ∈ ids
        then { t with order := ((idxIn t._id ids : Nat) : Int) } else t := by
    rw [applyReorderOps_eq_map u ids 0 st hids hst]
    refine List.map_congr_left fun t _ => ?_
    by_cases hc : t.user = u ∧ t._id ∈ ids
    · rw [if_pos hc, if_pos hc]
      exact congrArg (fun n : Nat => ({ t with order := (n : Int) } : Task)) (by omega)
    · rw [if_neg hc, if_neg hc]
  refine ⟨?_, ?_, ?_, rfl, rfl⟩
  · show Except.ok (applyReorderOps u 0 ids st) = _
    rw [hmap0]
  · intro t hmem hu hin
    rw [hmap0]
    exact List.mem_map.mpr ⟨t, hmem, by simp [hu, hin]⟩
  · intro t hmem hu
    rw [hmap0]
    exact List.mem_map.mpr ⟨t, hmem, by simp [hu]⟩

/-- Witness for C3: a concrete four-task store (three owned by `u1`, one
by `u2`) and the sequence `[c, a, b, x]` — the owned tasks get orders
0, 1, 2 by position and the foreign task `x` is unchanged. -/
theorem reorder_assigns_zero_based_positions_witness :
    reorderIds.Nodup ∧ (reorderStore.map Task._id).Nodup ∧
    reorderTasks "u1" (.arr reorderIds) reorderStore =
      .ok [{ taskA with order := 1 }, { taskB with order := 2 },
           { taskC with order := 0 }, taskX] :=
  ⟨by decide, by decide, by
    rw [(reorder_assigns_zero_based_positions "u1" reorderIds reorderStore
      (by decide) (by decide)).1]
    decide⟩

/-- Claim C9: the list endpoint returns a permutation of exactly the
owner's documents matching every supplied filter, sorted ascending by
`order`; every returned task belongs to the caller; a present `dueDate`
filter admits precisely the tasks whose `dueDate` lies in the closed
window from local midnight to 23:59:59.999 of the filter instant's
calendar day; and an empty store yields the empty sequence, not an
error. -/
theorem list_returns_owner_filtered_sorted (o : String) (f : Filters) (tz : Int)
    (st : List Task) :
    (listTasks o f tz st).Perm (st.filter (buildQuery o f tz))
    ∧ List.Sorted taskLE (listTasks o f tz st)
    ∧ (∀ t ∈ listTasks o f tz st, t.user = o ∧ t ∈ st ∧ buildQuery o f tz t = true)
    ∧ (∀ t : Task, buildQuery o f tz t = true → ∀ d, f.dueDate = some d →
        ∃ td, t.dueDate = some td
          ∧ dayStart tz d ≤ td ∧ td ≤ dayStart tz d + 86399999)
    ∧ listTasks o f tz [] = [] := by
  have hperm : (listTasks o f tz st).Perm (st.filter (buildQuery o f tz)) :=
    List.perm_insertionSort taskLE _
  refine ⟨hperm, List.sorted_insertionSort taskLE _, ?_, ?_, rfl⟩
  · intro t ht
    have hmem := hperm.mem_iff.mp ht
    rw [List.mem_filter] at hmem
    have hq := hmem.2
    have huser : t.user = o := by
      simp only [buildQuery, Bool.and_eq_true, beq_iff_eq] at hq
      exact hq.1.1.1.1
    exact ⟨huser, hmem.1, hq⟩
  · intro t hq d hd
    simp only [buildQuery, Bool.and_eq_true, beq_iff_eq] at hq
    have hdd := hq.2
    rw [hd] at hdd
    cases htd : t.dueDate with
    | none => rw [htd] at hdd; simp at hdd
    | some td =>
      rw [htd] at hdd
      simp only [Bool.and_eq_true, decide_eq_true_eq] at hdd
      exact ⟨td, rfl, hdd.1, hdd.2⟩

/-- Witness for C9: listing `u1`'s tasks from a store holding two `u1`
tasks (orders 7 and 3) and one `u2` task returns the two owned tasks in
ascending order. -/
theorem list_returns_owner_filtered_sorted_witness :
    listTasks "u1" {} 0 [taskA, taskB, taskX] = [taskB, taskA] ∧
    (listTasks "u1" {} 0 [taskA, taskB, taskX]).Perm
      ([taskA, taskB, taskX].filter (buildQuery "u1" {} 0)) ∧
    List.Sorted taskLE (listTasks "u1" {} 0 [taskA, taskB, taskX]) :=
  ⟨by decide, (list_returns_owner_filtered_sorted "u1" {} 0 [taskA, taskB, taskX]).1,
    (list_returns_owner_filtered_sorted "u1" {} 0 [taskA, taskB, taskX]).2.1⟩

/-- Helper: on a store with pairwise-distinct ids, `findOneAndDelete`'s
erase-first-match equals filtering out every match (there is at most
one). -/
theorem eraseP_eq_filter_not {p : Task → Bool} {tid : String}
    (hp : ∀ t, p t = true → t._id = tid) :
    ∀ st : List Task, (st.map Task._id).Nodup →
      st.eraseP p = st.filter fun t => !p t := by
  intro st
  induction st with
  | nil => intro _; rfl
  | cons x xs ih =>
    intro hst
    rw [List.map_cons, List.nodup_cons] at hst
    by_cases hx : p x = true
    · have hnone := tail_not_sat hp hx hst.1
      have hfilter : xs.filter (fun t => !p t) = xs :=
        List.filter_eq_self.mpr fun y hy => by simp [hnone y hy]
      simp [List.eraseP_cons, hx, hfilter]
    · have hxf : p x = false := by simpa using hx
      simp [List.eraseP_cons, hxf, ih hst.2]

/-- Claim C10: an update (with a payload passing validation) or a delete
that targets an id with no owner-scoped match — the id does not exist, or
the task belongs to a different principal — fails with the 404 not-found
response; a delete of an owned id removes the document, so every
subsequent listing by that owner excludes the deleted id (stated on a
store with pairwise-distinct ids, a MongoDB invariant). -/
theorem update_delete_notfound_and_delete_removes :
    (∀ (now : Int) (u tid : String) (b : Body) (st : List Task),
      validateTask now b = [] → (∀ t ∈ st, ¬(t._id = tid ∧ t.user = u)) →
      updateTask now u tid b st = .error .notFound)
    ∧ (∀ (u tid : String) (st : List Task),
      (∀ t ∈ st, ¬(t._id = tid ∧ t.user = u)) →
      deleteTask u tid st = .error .notFound)
    ∧ (∀ (u tid : String) (st st2 : List Task), (st.map Task._id).Nodup →
      deleteTask u tid st = .ok st2 →
      (∀ t ∈ st2, t ∈ st)
      ∧ ∀ (f : Filters) (tz : Int), ∀ t ∈ listTasks u f tz st2, t._id ≠ tid) := by
  have hfindnone : ∀ (u tid : String) (st : List Task),
      (∀ t ∈ st, ¬(t._id = tid ∧ t.user = u)) → findTask u tid st = none := by
    intro u tid st h
    unfold findTask
    rw [List.find?_eq_none]
    intro x hx
    simp only [Bool.and_eq_true, beq_iff_eq]
    exact fun hc => h x hx hc
  refine ⟨?_, ?_, ?_⟩
  · intro now u tid b st hv h
    simp [updateTask, hv, hfindnone u tid st h]
  · intro u tid st h
    simp [deleteTask, hfindnone u tid st h]
  · intro u tid st st2 hnodup hok
    unfold deleteTask at hok
    cases hfind : findTask u tid st with
    | none => rw [hfind] at hok; exact absurd hok (by simp)
    | some task =>
      rw [hfind] at hok
      simp only [Except.ok.injEq] at hok
      have hst2 : st2 = st.filter fun t => !(t._id == tid && t.user == u) := by
        rw [← hok]
        exact eraseP_eq_filter_not (p := fun t => t._id == tid && t.user == u)
          (fun t ht => by
            simp only [Bool.and_eq_true, beq_iff_eq] at ht
            exact ht.1) st hnodup
      constructor
      · intro t ht
        rw [hst2, List.mem_filter] at ht
        exact ht.1
      · intro f tz t ht
        simp only [listTasks] at ht
        have hmem := (List.perm_insertionSort taskLE
          (st2.filter (buildQuery u f tz))).mem_iff.mp ht
        rw [List.mem_filter] at hmem
        have huser : t.user = u := by
          have hq := hmem.2
          simp only [buildQuery, Bool.and_eq_true, beq_iff_eq] at hq
          exact hq.1.1.1.1
        have ht2 := hmem.1
        rw [hst2, List.mem_filter] at ht2
        intro hcontra
        have hpt : (t._id == tid && t.user == u) = true := by simp [hcontra, huser]
        simp [hpt] at ht2

/-- Witness for C10: deleting `t1` from the one-task store removes it
(the subsequent listing is empty), and update/delete of the absent id
`zz` return the 404 response. -/
theorem update_delete_notfound_and_delete_removes_witness :
    validateTask 100 completeBody = [] ∧
    updateTask 100 "u1" "zz" completeBody [samplePending] = .error .notFound ∧
    deleteTask "u2" "t1" [samplePending] = .error .notFound ∧
    deleteTask "u1" "t1" [samplePending] = .ok [] ∧
    listTasks "u1" {} 0 [] = [] :=
  ⟨by decide,
    update_delete_notfound_and_delete_removes.1 100 "u1" "zz" completeBody
      [samplePending] (by decide) (by decide),
    update_delete_notfound_and_delete_removes.2.1 "u2" "t1" [samplePending] (by decide),
    by decide, by decide⟩

/-- Witness for C8 at the concrete payload with past `dueDate`. -/
theorem past_dueDate_or_reminder_rejected_witness :
    pastDatesBody.dueDate = some 10 ∧ (10 : Int) ≤ 100 ∧
    (FieldError.mk "dueDate" "Due date must be in the future" ∈ validateTask 100 pastDatesBody
      ∧ createTask 100 "u1" pastDatesBody "t9" =
          .error (.validationError (validateTask 100 pastDatesBody))
      ∧ updateTask 100 "u1" "t1" pastDatesBody [samplePending] =
          .error (.validationError (validateTask 100 pastDatesBody))) :=
  ⟨by decide, by decide,
    (past_dueDate_or_reminder_rejected 100 "u1" "t9" "t1" pastDatesBody [samplePending]).1
      10 (by decide) (by decide)⟩

end Todo
